import Mathlib

/-!
Verification of the SpeakWise core components against their natural-language
specification.

Part 1 models the client-side text-similarity scorer from
`src/components/AnalysisResult.tsx` (`calculateLevenshteinDistance` and
`calculateTextSimilarity`).  JavaScript strings are modelled as `List Char`
(wrapped in `String` at the interface), JavaScript numbers as `ℚ`/`ℤ` with
`Math.round x = ⌊x + 1/2⌋`.

Part 2 models the recording controller: the `useAudioRecorder` hook from
`src/hooks/useAudioRecorder.ts` together with the duration timer of the
`AudioRecorder` component from `src/components/AudioUploader.tsx`.  The
stateful hook is embedded as explicit state passing: every operation is a
total function on a `RecorderModel` record, and the asynchronous device
events (`ondataavailable`, `onstop`, interval ticks) are separate step
functions applied by the environment.
-/

namespace SpeakWise

/-! ## Part 1: the similarity scorer -/

/-- Substitution cost used by the scorer: `0` when the characters are equal,
otherwise `1` (the `substitutionCost` ternary in the source). -/
def substCost (x y : Char) : Nat := if x = y then 0 else 1

/-- Helper for the textbook Levenshtein recursion: the edit distance from
`x :: xs` to the argument list, given the distance function `f` for `xs`. -/
def levAux (x : Char) (f : List Char → Nat) : List Char → Nat
  | [] => f [] + 1
  | y :: ys => min (f (y :: ys) + 1) (min (levAux x f ys + 1) (f ys + substCost x y))

/-- The classic Levenshtein edit distance, written as the textbook structural
recursion.  The dynamic-programming matrix of the source is proved equal to
this function (`levMatrix_eq_lev`), and this function is proved equal to
Mathlib's `levenshtein` with unit costs (`lev_eq_levenshtein`). -/
def lev : List Char → List Char → Nat
  | [] => fun ys => ys.length
  | x :: xs => levAux x (lev xs)

/-- Entry `matrix[j][i]` of the dynamic-programming table built by
`calculateLevenshteinDistance` in `AnalysisResult.tsx`: row `0` is seeded with
`i`, column `0` with `j`, and an interior entry is the minimum of the deletion,
insertion and substitution entries, with the substitution cost comparing
`a[i-1]` and `b[j-1]` — exactly the source recurrence. -/
def levMatrix (a b : List Char) : Nat → Nat → Nat
  | 0, i => i
  | j + 1, 0 => j + 1
  | j + 1, i + 1 =>
      min (levMatrix a b (j + 1) i + 1)
        (min (levMatrix a b j (i + 1) + 1)
          (levMatrix a b j i + substCost (a.getD i ' ') (b.getD j ' ')))
termination_by j i => (j, i)

/-- Model of `calculateLevenshteinDistance` from `AnalysisResult.tsx`: early
returns for empty inputs, otherwise the DP matrix entry at
`(b.length, a.length)`. -/
def calculateLevenshteinDistance (a b : List Char) : Nat :=
  if a.length = 0 then b.length
  else if b.length = 0 then a.length
  else levMatrix a b b.length a.length

/-- Model of JavaScript `String.prototype.trim`: strip whitespace from both
ends of the character list. -/
def jsTrim (l : List Char) : List Char :=
  ((l.dropWhile Char.isWhitespace).reverse.dropWhile Char.isWhitespace).reverse

/-- Model of JavaScript `String.prototype.toLowerCase` (character-wise
lowering). -/
def jsToLower (l : List Char) : List Char := l.map Char.toLower

/-- Model of JavaScript `Math.round`: `⌊x + 1/2⌋`, i.e. rounding with halves
going toward positive infinity. -/
def jsRound (q : ℚ) : ℤ := ⌊q + 1 / 2⌋

/-- Model of `calculateTextSimilarity` from `AnalysisResult.tsx`: trim and
lower-case both inputs, return `100` when the longer cleaned string is empty,
otherwise `Math.max(0, Math.round(((maxLength - distance) / maxLength) * 100))`
with `distance` computed by `calculateLevenshteinDistance`. -/
def calculateTextSimilarity (a b : String) : ℤ :=
  let cleanA := jsToLower (jsTrim a.data)
  let cleanB := jsToLower (jsTrim b.data)
  let maxLength := max cleanA.length cleanB.length
  if maxLength = 0 then 100
  else
    let distance := calculateLevenshteinDistance cleanA cleanB
    let similarity : ℚ := ((maxLength : ℚ) - (distance : ℚ)) / (maxLength : ℚ)
    max 0 (jsRound (similarity * 100))

/-- The same function without the final `Math.max(0, ·)` clamp, used to state
that the clamp is never the deciding branch. -/
def calculateTextSimilarityUnclamped (a b : String) : ℤ :=
  let cleanA := jsToLower (jsTrim a.data)
  let cleanB := jsToLower (jsTrim b.data)
  let maxLength := max cleanA.length cleanB.length
  if maxLength = 0 then 100
  else
    let distance := calculateLevenshteinDistance cleanA cleanB
    let similarity : ℚ := ((maxLength : ℚ) - (distance : ℚ)) / (maxLength : ℚ)
    jsRound (similarity * 100)

/-- Similarity as described by the specification text: normalize both inputs
by trimming surrounding whitespace and lower-casing; if the longer normalized
string has length `0` return `100`; otherwise return
`round(100 * (maxLen - d) / maxLen)` clamped below at `0`, where `d` is the
classic Levenshtein edit distance — taken here to be Mathlib's `levenshtein`
with unit insert/delete/substitute costs. -/
def specSimilarity (a b : String) : ℤ :=
  let na := jsToLower (jsTrim a.data)
  let nb := jsToLower (jsTrim b.data)
  let maxLen := max na.length nb.length
  if maxLen = 0 then 100
  else
    let d := levenshtein Levenshtein.defaultCost na nb
    max 0 (jsRound (100 * (((maxLen : ℚ) - (d : ℚ)) / (maxLen : ℚ))))

theorem lev_nil_left (ys : List Char) : lev [] ys = ys.length := rfl

theorem lev_cons_cons (x : Char) (xs : List Char) (y : Char) (ys : List Char) :
    lev (x :: xs) (y :: ys) =
      min (lev xs (y :: ys) + 1) (min (lev (x :: xs) ys + 1) (lev xs ys + substCost x y)) := rfl

theorem lev_cons_nil (x : Char) (xs : List Char) : lev (x :: xs) [] = lev xs [] + 1 := rfl

theorem lev_nil_right (xs : List Char) : lev xs [] = xs.length := by
  induction xs with
  | nil => rfl
  | cons x xs ih => rw [lev_cons_nil, ih, List.length_cons]

theorem substCost_le_one (x y : Char) : substCost x y ≤ 1 := by
  unfold substCost
  split <;> omega

theorem substCost_comm (x y : Char) : substCost x y = substCost y x := by
  simp [substCost, eq_comm]

set_option maxHeartbeats 4000000 in
/-- Both sides of this identity are the minimum of the same nine flattened
terms, grouped differently; it is the combinatorial heart of commuting the
first-element and last-element Levenshtein recurrences. -/
theorem min_fold_exchange (A1 A2 A3 B1 B2 B3 C1 C2 C3 c1 c2 : Nat) :
    min (min (A1 + 1) (min (A2 + 1) (A3 + c1)) + 1)
      (min (min (B1 + 1) (min (B2 + 1) (B3 + c1)) + 1)
        (min (C1 + 1) (min (C2 + 1) (C3 + c1)) + c2)) =
    min (min (A1 + 1) (min (B1 + 1) (C1 + c2)) + 1)
      (min (min (A2 + 1) (min (B2 + 1) (C2 + c2)) + 1)
        (min (A3 + 1) (min (B3 + 1) (C3 + c2)) + c1)) := by
  simp only [← min_add_add_right]
  refine le_antisymm ?_ ?_ <;> simp only [le_min_iff] <;> omega

/-- Key bridging lemma between the prefix-oriented DP matrix and the
suffix-oriented textbook recursion: the classic recurrence also holds when the
last characters are peeled off instead of the first ones. -/
theorem lev_append_singleton (x y : Char) (xs ys : List Char) :
    lev (xs ++ [x]) (ys ++ [y]) =
      min (lev xs (ys ++ [y]) + 1)
        (min (lev (xs ++ [x]) ys + 1) (lev xs ys + substCost x y)) := by
  induction xs generalizing ys with
  | nil =>
    induction ys with
    | nil =>
      simp only [List.nil_append, lev_cons_cons, lev_nil_left, lev_cons_nil, List.length_cons,
        List.length_nil]
    | cons y' ys' ih =>
      simp only [List.nil_append, List.cons_append] at ih ⊢
      rw [lev_cons_cons, lev_cons_cons x [] y' ys', ih]
      simp only [lev_nil_left, List.length_cons, List.length_append, List.length_nil]
      omega
  | cons x' xs' ih1 =>
    induction ys with
    | nil =>
      have h1 := ih1 []
      simp only [List.nil_append, List.cons_append] at h1 ⊢
      rw [lev_cons_cons, lev_cons_cons x' xs' y [], h1]
      simp only [lev_nil_right, lev_cons_nil, List.length_append, List.length_cons,
        List.length_nil]
      omega
    | cons y' ys' ih2 =>
      have h1 := ih1 (y' :: ys')
      have h3 := ih1 ys'
      simp only [List.cons_append] at h1 h3 ih2 ⊢
      rw [lev_cons_cons, lev_cons_cons x' xs' y' (ys' ++ [y]),
        lev_cons_cons x' (xs' ++ [x]) y' ys', lev_cons_cons x' xs' y' ys', h1, ih2, h3]
      exact min_fold_exchange _ _ _ _ _ _ _ _ _ _ _

/-- A prefix of length `n + 1` is the prefix of length `n` with the element at
index `n` appended. -/
theorem take_succ_getD (l : List Char) (n : Nat) (h : n < l.length) :
    l.take (n + 1) = l.take n ++ [l.getD n ' '] := by
  rw [List.take_succ, List.getD_eq_getElem?_getD, List.getElem?_eq_getElem h]
  rfl

/-- The DP matrix entry `(j, i)` is the classic Levenshtein distance between
the length-`i` prefix of `a` and the length-`j` prefix of `b`. -/
theorem levMatrix_eq_lev (a b : List Char) :
    ∀ j i, j ≤ b.length → i ≤ a.length →
      levMatrix a b j i = lev (a.take i) (b.take j) := by
  intro j
  induction j with
  | zero =>
    intro i _ hi
    rw [levMatrix, List.take_zero, lev_nil_right, List.length_take]
    omega
  | succ j' ihj =>
    intro i
    induction i with
    | zero =>
      intro _ _
      rw [levMatrix, List.take_zero, lev_nil_left, List.length_take]
      omega
    | succ i' ihi =>
      intro hj hi
      rw [levMatrix, ihj i' (by omega) (by omega), ihj (i' + 1) (by omega) hi, ihi (by omega) (by omega),
        take_succ_getD a i' (by omega), take_succ_getD b j' (by omega),
        lev_append_singleton]

/-- The source's `calculateLevenshteinDistance` computes exactly the classic
Levenshtein distance. -/
theorem calculateLevenshteinDistance_eq_lev (a b : List Char) :
    calculateLevenshteinDistance a b = lev a b := by
  unfold calculateLevenshteinDistance
  rcases a with _ | ⟨x, xs⟩
  · simp [lev_nil_left]
  · rcases b with _ | ⟨y, ys⟩
    · simp [lev_nil_right]
    · rw [if_neg (by simp), if_neg (by simp),
        levMatrix_eq_lev _ _ _ _ (by omega) (by omega), List.take_length, List.take_length]

/-- The textbook recursion agrees with Mathlib's `levenshtein` under the
default unit cost structure. -/
theorem lev_eq_levenshtein (xs ys : List Char) :
    lev xs ys = levenshtein Levenshtein.defaultCost xs ys := by
  induction xs generalizing ys with
  | nil =>
    induction ys with
    | nil => simp [lev_nil_left, levenshtein_nil_nil]
    | cons y ys ih => simp [lev_nil_left, levenshtein_nil_cons, ← ih]; omega
  | cons x xs ih =>
    induction ys with
    | nil => simp [lev_cons_nil, levenshtein_cons_nil, lev_nil_right, ← ih [], lev_nil_right]; omega
    | cons y ys ihy =>
      rw [lev_cons_cons, levenshtein_cons_cons, ← ih (y :: ys), ← ihy, ← ih ys]
      simp only [Levenshtein.defaultCost_delete, Levenshtein.defaultCost_insert,
        Levenshtein.defaultCost_substitute, substCost]
      omega

theorem lev_comm (xs ys : List Char) : lev xs ys = lev ys xs := by
  induction xs generalizing ys with
  | nil => rw [lev_nil_left, lev_nil_right]
  | cons x xs ih =>
    induction ys with
    | nil => rw [lev_nil_left, lev_nil_right]
    | cons y ys ihy =>
      rw [lev_cons_cons, lev_cons_cons, ih (y :: ys), ihy, ih ys, substCost_comm]
      omega

theorem lev_le_max_length (xs ys : List Char) : lev xs ys ≤ max xs.length ys.length := by
  induction xs generalizing ys with
  | nil => rw [lev_nil_left]; omega
  | cons x xs ih =>
    induction ys with
    | nil => rw [lev_nil_right]; omega
    | cons y ys ihy =>
      have h1 := ih (y :: ys)
      have h2 := ih ys
      have h3 := substCost_le_one x y
      rw [lev_cons_cons]
      simp only [List.length_cons] at h1 ihy h2 ⊢
      omega

theorem calculateLevenshteinDistance_le_max (a b : List Char) :
    calculateLevenshteinDistance a b ≤ max a.length b.length := by
  rw [calculateLevenshteinDistance_eq_lev]
  exact lev_le_max_length a b

/-- The source similarity function agrees with the specification formula. -/
theorem calculateTextSimilarity_eq_spec (a b : String) :
    calculateTextSimilarity a b = specSimilarity a b := by
  simp only [calculateTextSimilarity, specSimilarity, calculateLevenshteinDistance_eq_lev,
    lev_eq_levenshtein]
  split
  · rfl
  · rw [mul_comm]

theorem lev_kitten_sitting : lev "kitten".data "sitting".data = 3 := by decide

/-- Evaluation of the scorer on the worked example from the specification. -/
theorem calculateTextSimilarity_kitten :
    calculateTextSimilarity "kitten" "sitting" = 57 := by
  have hA : jsToLower (jsTrim "kitten".data) = "kitten".data := by decide
  have hB : jsToLower (jsTrim "sitting".data) = "sitting".data := by decide
  have hd : calculateLevenshteinDistance "kitten".data "sitting".data = 3 := by
    rw [calculateLevenshteinDistance_eq_lev]
    exact lev_kitten_sitting
  have hla : ("kitten".data).length = 6 := by decide
  have hlb : ("sitting".data).length = 7 := by decide
  simp only [calculateTextSimilarity, hA, hB, hd, hla, hlb]
  norm_num [jsRound, Int.floor_eq_iff]

theorem jsRound_nonneg (q : ℚ) (h : 0 ≤ q) : 0 ≤ jsRound q := by
  unfold jsRound
  exact Int.le_floor.mpr (by push_cast; linarith)

theorem jsRound_le_of_le_100 (q : ℚ) (h : q ≤ 100) : jsRound q ≤ 100 := by
  unfold jsRound
  have h2 : ⌊q + 1 / 2⌋ < 101 := Int.floor_lt.mpr (by push_cast; linarith)
  omega

/-- Bounds for the rounded similarity ratio when the distance does not exceed
the longer length. -/
theorem round_ratio_bounds (m d : Nat) (hm : m ≠ 0) (hd : d ≤ m) :
    0 ≤ jsRound (((m : ℚ) - (d : ℚ)) / (m : ℚ) * 100) ∧
      jsRound (((m : ℚ) - (d : ℚ)) / (m : ℚ) * 100) ≤ 100 := by
  have hm' : (0 : ℚ) < (m : ℚ) := by exact_mod_cast Nat.pos_of_ne_zero hm
  have hdm : (d : ℚ) ≤ (m : ℚ) := by exact_mod_cast hd
  have h0 : 0 ≤ ((m : ℚ) - (d : ℚ)) / (m : ℚ) := div_nonneg (by linarith) (le_of_lt hm')
  have h1 : ((m : ℚ) - (d : ℚ)) / (m : ℚ) ≤ 1 := by
    rw [div_le_one hm']
    have : (0 : ℚ) ≤ (d : ℚ) := by positivity
    linarith
  constructor
  · exact jsRound_nonneg _ (by nlinarith)
  · exact jsRound_le_of_le_100 _ (by nlinarith)

theorem calculateTextSimilarityUnclamped_bounds (a b : String) :
    0 ≤ calculateTextSimilarityUnclamped a b ∧ calculateTextSimilarityUnclamped a b ≤ 100 := by
  simp only [calculateTextSimilarityUnclamped]
  split
  · norm_num
  · next h =>
    exact round_ratio_bounds _ _ h
      (le_trans (calculateLevenshteinDistance_le_max _ _) (le_of_eq rfl))

theorem calculateTextSimilarity_eq_unclamped (a b : String) :
    calculateTextSimilarity a b = calculateTextSimilarityUnclamped a b := by
  have h := calculateTextSimilarityUnclamped_bounds a b
  simp only [calculateTextSimilarity, calculateTextSimilarityUnclamped] at h ⊢
  split
  · rfl
  · next hc =>
    rw [if_neg hc] at h
    exact max_eq_right h.1

/-- C1: `calculateTextSimilarity` first trims and lower-cases both inputs,
returns `100` when the longer normalized string is empty, and otherwise
returns `round(100 * (maxLen - d) / maxLen)` clamped below at `0`, with `d`
the classic Levenshtein edit distance (Mathlib's unit-cost `levenshtein`);
and `similarity("kitten", "sitting") = 57`. -/
theorem claim_similarity_formula :
    (∀ a b : String, calculateTextSimilarity a b = specSimilarity a b) ∧
      calculateTextSimilarity "kitten" "sitting" = 57 :=
  ⟨calculateTextSimilarity_eq_spec, calculateTextSimilarity_kitten⟩

/-- C9: the similarity scorer is symmetric in its two arguments. -/
theorem claim_similarity_symm (a b : String) :
    calculateTextSimilarity a b = calculateTextSimilarity b a := by
  simp only [calculateTextSimilarity, calculateLevenshteinDistance_eq_lev]
  rw [Nat.max_comm, lev_comm]

/-- C10: the Levenshtein distance computed by the source never exceeds the
longer input length, so the `Math.max(0, ·)` clamp never decides (the
unclamped rounded value is already non-negative) and the similarity is always
an integer in `[0, 100]`. -/
theorem claim_distance_bound_clamp_redundant :
    (∀ a b : List Char, calculateLevenshteinDistance a b ≤ max a.length b.length) ∧
      (∀ a b : String,
        0 ≤ calculateTextSimilarityUnclamped a b ∧
          calculateTextSimilarity a b = calculateTextSimilarityUnclamped a b ∧
          0 ≤ calculateTextSimilarity a b ∧ calculateTextSimilarity a b ≤ 100) := by
  refine ⟨calculateLevenshteinDistance_le_max, fun a b => ?_⟩
  have hb := calculateTextSimilarityUnclamped_bounds a b
  have he := calculateTextSimilarity_eq_unclamped a b
  exact ⟨hb.1, he, by omega, by omega⟩

/-! ## Part 2: the recording controller

The `useAudioRecorder` hook and the `AudioRecorder` duration timer are
embedded as pure step functions on an explicit `RecorderModel` state.  The
browser collaborators are modelled by data: `getUserMedia` outcomes are a
parameter of `startRecording`, and the asynchronous `ondataavailable`,
`onstop` and interval-tick events are separate step functions that the
environment applies after the corresponding operation. -/

/-- One physical input track of a media stream; `stopped` records whether
`track.stop()` has been called on it. -/
structure Track where
  stopped : Bool
deriving DecidableEq

/-- A capture-device stream handle: the list of its physical input tracks. -/
structure MediaStream where
  tracks : List Track
deriving DecidableEq

/-- States of the underlying `MediaRecorder` device object that the hook
observes (`paused` is never used by the hook). -/
inductive MRState where
  | inactive
  | recording
deriving DecidableEq

/-- Model of the `MediaRecorder` device handle: its state, the encoding label
it reports (the empty string models a missing/falsy `mimeType`), and whether
the `onstop` finalize callback is currently attached (`cancelRecording` sets
it to `null`). -/
structure MediaRecorder where
  state : MRState
  mimeType : String
  onstopAttached : Bool
deriving DecidableEq

/-- One data fragment delivered by the device (`event.data` in
`ondataavailable`): its size and an identifier for its payload. -/
structure Chunk where
  size : Nat
  payload : String
deriving DecidableEq

/-- The `RecordingStatus` type of `useAudioRecorder.ts`. -/
inductive RecordingStatus where
  | inactive
  | recording
  | paused
  | stopped
deriving DecidableEq

/-- Combined observable state of the recording controller: the
`useAudioRecorder` hook state (`status`, `error`, and the three refs) together
with the `AudioRecorder` component timer (`duration`), an archive of released
streams (so that track stopping stays observable after the ref is nulled), the
resolution of the `stopped` promise (`delivered`), and a counter of successful
device acquisitions. -/
structure RecorderModel where
  status : RecordingStatus
  error : Option String
  mediaRecorder : Option MediaRecorder
  audioChunks : List Chunk
  stream : Option MediaStream
  releasedStreams : List MediaStream
  delivered : Option (List Chunk × String)
  duration : Nat
  acquisitions : Nat
deriving DecidableEq

/-- The hook's state before any session: inactive, no error, empty refs. -/
def initState : RecorderModel :=
  { status := RecordingStatus.inactive
    error := none
    mediaRecorder := none
    audioChunks := []
    stream := none
    releasedStreams := []
    delivered := none
    duration := 0
    acquisitions := 0 }

/-- Result of `navigator.mediaDevices.getUserMedia`: either a fresh stream
(together with the encoding label the new `MediaRecorder` will report), or a
rejection whose error message is the string the hook inspects. -/
inductive AcquireOutcome where
  | success (stream : MediaStream) (mimeType : String)
  | failure (message : String)
deriving DecidableEq

/-- What `startRecording` returns to its caller: the early guard return, a
started session (pending `stopped` promise), or a normal return carrying a
rejected `stopped` promise — the failure path returns, it does not throw. -/
inductive StartResult where
  | guardReturn
  | started
  | failedRejected (message : String)
deriving DecidableEq

/-- The specialized error message recorded when the failure message contains
'Permission denied'. -/
def permissionDeniedMessage : String :=
  "Microphone permission denied. Please allow microphone access in your browser settings."

/-- Model of JavaScript `String.prototype.includes`: the pattern occurs as a
contiguous substring (via `splitOn`, which produces more than one piece
exactly when the separator occurs). -/
def jsIncludes (s pat : String) : Bool := (s.splitOn pat).length != 1

/-- A stream with every physical track stopped, as produced by
`stream.getTracks().forEach(track => track.stop())`. -/
def stopTracks (st : MediaStream) : MediaStream :=
  { tracks := st.tracks.map fun _ => { stopped := true } }

/-- Model of `startRecording` from `useAudioRecorder.ts`, with the
`getUserMedia` outcome passed as a parameter.  Source order is preserved:
`setStatus('inactive')` and `setError(null)` run before the recording guard;
on success the stream ref is set, status becomes `recording`, and a fresh
started `MediaRecorder` with attached handlers is stored; on failure the
message is specialized when it contains 'Permission denied', status returns to
`inactive`, and the rejected promise is returned.  Setting `duration := 0` on
success embeds the `AudioRecorder` effect that runs `setDuration(0)` when the
status transitions to `recording`. -/
def startRecording (s : RecorderModel) (outcome : AcquireOutcome) :
    RecorderModel × StartResult :=
  let s0 := { s with status := RecordingStatus.inactive, error := none }
  if s0.mediaRecorder.map MediaRecorder.state = some MRState.recording then
    (s0, StartResult.guardReturn)
  else
    match outcome with
    | AcquireOutcome.success stream mime =>
        ({ s0 with
            stream := some stream
            status := RecordingStatus.recording
            mediaRecorder := some
              { state := MRState.recording, mimeType := mime, onstopAttached := true }
            duration := 0
            acquisitions := s0.acquisitions + 1 }, StartResult.started)
    | AcquireOutcome.failure message =>
        ({ s0 with
            status := RecordingStatus.inactive
            error := some (if jsIncludes message "Permission denied" then
              permissionDeniedMessage else message) }, StartResult.failedRejected message)

/-- Model of the `ondataavailable` handler: append `event.data` to the chunk
buffer when its size is positive. -/
def dataAvailable (s : RecorderModel) (c : Chunk) : RecorderModel :=
  if 0 < c.size then { s with audioChunks := s.audioChunks ++ [c] } else s

/-- Model of the `MediaRecorder` stop event reaching the hook.  When a
recorder handle exists and its `onstop` callback is still attached, the
callback assembles the chunk buffer — in order — into a payload tagged with
the reported `mimeType` (falling back to 'audio/webm' when the device reports
none), clears the buffer, transitions to `stopped`, stops every track of the
held stream, nulls the stream ref, and resolves the `stopped` promise.  With
the callback detached (after `cancelRecording`) the event leaves the hook
state unchanged. -/
def fireOnstop (s : RecorderModel) : RecorderModel :=
  match s.mediaRecorder with
  | some r =>
      if r.onstopAttached then
        { s with
            delivered := some (s.audioChunks,
              if r.mimeType = "" then "audio/webm" else r.mimeType)
            audioChunks := []
            status := RecordingStatus.stopped
            stream := none
            releasedStreams := s.releasedStreams ++
              (match s.stream with
               | some st => [stopTracks st]
               | none => []) }
      else s
  | none => s

/-- Model of `stopRecording`: only when a recorder handle exists and the hook
status is `recording` does it call `MediaRecorder.stop()`, which moves the
device out of the recording state (the resulting stop event is delivered
separately as `fireOnstop`). -/
def stopRecording (s : RecorderModel) : RecorderModel :=
  match s.mediaRecorder with
  | some r =>
      if s.status = RecordingStatus.recording then
        { s with mediaRecorder := some { r with state := MRState.inactive } }
      else s
  | none => s

/-- Model of `cancelRecording`: detach the `onstop` callback first, force the
device out of the recording state if it is still recording, stop every track
of the held stream and null the stream ref, discard the chunk buffer, and
reset the status to `inactive`.  The error field is not touched. -/
def cancelRecording (s : RecorderModel) : RecorderModel :=
  let s1 :=
    match s.mediaRecorder with
    | some r =>
        { s with
            mediaRecorder := some { r with
              onstopAttached := false
              state := if r.state = MRState.recording then MRState.inactive else r.state } }
    | none => s
  let s2 :=
    match s1.stream with
    | some st =>
        { s1 with
            stream := none
            releasedStreams := s1.releasedStreams ++ [stopTracks st] }
    | none => s1
  { s2 with audioChunks := [], status := RecordingStatus.inactive }

/-- Five-minute cap of the `AudioRecorder` duration timer. -/
def MAX_DURATION_SECONDS : Nat := 300

/-- Model of one interval tick of the `AudioRecorder` duration timer: only
while the hook status is `recording`, increment the counter; when the new
value reaches the cap, invoke the same `stopRecording` path as the Stop button
(`handleStop`) and pin the counter at the cap. -/
def tick (s : RecorderModel) : RecorderModel :=
  if s.status = RecordingStatus.recording then
    let newDuration := s.duration + 1
    if MAX_DURATION_SECONDS ≤ newDuration then
      { stopRecording s with duration := MAX_DURATION_SECONDS }
    else
      { s with duration := newDuration }
  else s

/-- Asynchronous events the environment can deliver to an existing session
(everything except a fresh `startRecording`, which begins a new session). -/
inductive PostEvent where
  | data (c : Chunk)
  | onstopFired
  | timerTick
  | stopCall
  | cancelCall
deriving DecidableEq

/-- Apply one environment event to the controller state. -/
def applyEvent (s : RecorderModel) : PostEvent → RecorderModel
  | PostEvent.data c => dataAvailable s c
  | PostEvent.onstopFired => fireOnstop s
  | PostEvent.timerTick => tick s
  | PostEvent.stopCall => stopRecording s
  | PostEvent.cancelCall => cancelRecording s

/-- Apply a list of environment events in order. -/
def applyEvents (s : RecorderModel) (es : List PostEvent) : RecorderModel :=
  es.foldl applyEvent s

/-! ### Concrete fixtures used by witnesses and counterexamples -/

/-- A sample positive-size fragment. -/
def exChunk : Chunk := { size := 5, payload := "c0" }

/-- A second positive-size fragment. -/
def exChunk2 : Chunk := { size := 3, payload := "c1" }

/-- An empty fragment, which the `ondataavailable` handler discards. -/
def exEmptyChunk : Chunk := { size := 0, payload := "e" }

/-- A sample two-track capture stream. -/
def exStream : MediaStream :=
  { tracks := [{ stopped := false }, { stopped := false }] }

/-- A recorder device handle in the recording state that reports no encoding
label. -/
def exRecorder : MediaRecorder :=
  { state := MRState.recording, mimeType := "", onstopAttached := true }

/-- A controller state in the middle of a recording session. -/
def exRecordingState : RecorderModel :=
  { status := RecordingStatus.recording
    error := none
    mediaRecorder := some exRecorder
    audioChunks := [exChunk]
    stream := some exStream
    releasedStreams := []
    delivered := none
    duration := 42
    acquisitions := 1 }

/-- A fresh recording session, as just after a successful start. -/
def exFreshRecording : RecorderModel :=
  { exRecordingState with duration := 0 }

/-- A state left over from an aborted session: the device is no longer
recording but the chunk buffer still holds a fragment. -/
def exLeftoverState : RecorderModel :=
  { status := RecordingStatus.recording
    error := none
    mediaRecorder := some
      { state := MRState.inactive, mimeType := "", onstopAttached := true }
    audioChunks := [exChunk]
    stream := none
    releasedStreams := []
    delivered := none
    duration := 7
    acquisitions := 1 }

/-! ### Controller lemmas and claim theorems -/

/-- C2 counterexample: calling start() while a session is recording is not a
no-op on the in-progress session — the observable status is reset from
`recording` to `inactive` (the source calls `setStatus('inactive')` and
`setError(null)` before the guard returns). -/
theorem claim_start_guard_counterexample :
    (startRecording exRecordingState (AcquireOutcome.success exStream "x")).1.status ≠
      exRecordingState.status := by
  decide

/-- C2 amended: while a session is recording, a second start() returns early
without acquiring a second device — the recorder handle, chunk buffer, stream
ref and acquisition count are all unchanged, so exactly one active session
remains — but it does reset the observable status to `inactive` and clears
the error field before returning. -/
theorem claim_start_guard_amended (s : RecorderModel) (outcome : AcquireOutcome)
    (h : s.mediaRecorder.map MediaRecorder.state = some MRState.recording) :
    startRecording s outcome =
      ({ s with status := RecordingStatus.inactive, error := none },
        StartResult.guardReturn) := by
  simp [startRecording, h]

/-- Closed instance of the amended C2 guard behaviour. -/
theorem claim_start_guard_amended_witness :
    startRecording exRecordingState (AcquireOutcome.success exStream "x") =
      ({ exRecordingState with status := RecordingStatus.inactive, error := none },
        StartResult.guardReturn) :=
  claim_start_guard_amended exRecordingState (AcquireOutcome.success exStream "x") (by decide)

/-- C8 counterexample: a successful start() does not reset the chunk buffer —
starting from a state with a leftover fragment, the new session begins with
that fragment still in the buffer. -/
theorem claim_start_reset_counterexample :
    (startRecording exLeftoverState (AcquireOutcome.success exStream "audio/webm")).1.audioChunks ≠
      [] := by
  decide

/-- C8 amended: on every successful device acquisition start() transitions the
status to `recording` and resets the elapsed-time counter to `0`, but it does
not clear the chunk buffer — the buffer is carried over unchanged (it is
cleared by the finalize callback and by cancelRecording instead). -/
theorem claim_start_success_amended (s : RecorderModel) (st : MediaStream) (mime : String)
    (h : ¬ s.mediaRecorder.map MediaRecorder.state = some MRState.recording) :
    startRecording s (AcquireOutcome.success st mime) =
      ({ s with
          status := RecordingStatus.recording
          error := none
          stream := some st
          mediaRecorder := some
            { state := MRState.recording, mimeType := mime, onstopAttached := true }
          duration := 0
          acquisitions := s.acquisitions + 1 }, StartResult.started) := by
  simp [startRecording, h]

/-- Closed instance of the amended C8 start behaviour. -/
theorem claim_start_success_amended_witness :
    startRecording exLeftoverState (AcquireOutcome.success exStream "audio/webm") =
      ({ exLeftoverState with
          status := RecordingStatus.recording
          error := none
          stream := some exStream
          mediaRecorder := some
            { state := MRState.recording, mimeType := "audio/webm", onstopAttached := true }
          duration := 0
          acquisitions := exLeftoverState.acquisitions + 1 }, StartResult.started) :=
  claim_start_success_amended exLeftoverState exStream "audio/webm" (by decide)

/-- C6: on device-acquisition failure, start() ends with status `inactive`
and a recorded human-readable message — the specialized permission-denial
wording exactly when the failure message contains 'Permission denied',
otherwise the failure's own message — it returns a rejected deferred result
instead of throwing (the model is a total function), and the controller is
immediately restartable. -/
theorem claim_start_failure (s : RecorderModel) (message : String)
    (h : ¬ s.mediaRecorder.map MediaRecorder.state = some MRState.recording) :
    (startRecording s (AcquireOutcome.failure message)).1.status =
        RecordingStatus.inactive ∧
      (startRecording s (AcquireOutcome.failure message)).1.error =
        some (if jsIncludes message "Permission denied" then permissionDeniedMessage
          else message) ∧
      (startRecording s (AcquireOutcome.failure message)).2 =
        StartResult.failedRejected message ∧
      (∀ st mime,
        (startRecording (startRecording s (AcquireOutcome.failure message)).1
            (AcquireOutcome.success st mime)).2 = StartResult.started) := by
  refine ⟨?_, ?_, ?_, fun st mime => ?_⟩ <;> simp [startRecording, h]

/-- Closed instance of the C6 failure behaviour at a permission-denial
message. -/
theorem claim_start_failure_witness :
    (startRecording initState (AcquireOutcome.failure "Permission denied")).1.status =
        RecordingStatus.inactive ∧
      (startRecording initState (AcquireOutcome.failure "Permission denied")).1.error =
        some (if jsIncludes "Permission denied" "Permission denied" then
          permissionDeniedMessage else "Permission denied") ∧
      (startRecording initState (AcquireOutcome.failure "Permission denied")).2 =
        StartResult.failedRejected "Permission denied" ∧
      (∀ st mime,
        (startRecording
            (startRecording initState (AcquireOutcome.failure "Permission denied")).1
            (AcquireOutcome.success st mime)).2 = StartResult.started) :=
  claim_start_failure initState "Permission denied" (by decide)

/-- C7: cancelRecording is valid from every state — afterwards the status is
`inactive`, the chunk buffer is empty, the stream ref is released with every
physical track stopped, any remaining recorder handle is out of the recording
state with its finalize callback detached, the error field is untouched (no
error is produced) — and on the pristine initial state cancellation is an
idempotent no-op. -/
theorem cancelRecording_mediaRecorder (s : RecorderModel) :
    (cancelRecording s).mediaRecorder =
      s.mediaRecorder.map fun r =>
        { r with
            onstopAttached := false
            state := if r.state = MRState.recording then MRState.inactive else r.state } := by
  rcases s with ⟨st0, e0, mr0, ch0, str0, rel0, del0, d0, a0⟩
  cases mr0 <;> cases str0 <;> simp [cancelRecording]

theorem claim_cancel_any_state (s : RecorderModel) :
    (cancelRecording s).status = RecordingStatus.inactive ∧
      (cancelRecording s).audioChunks = [] ∧
      (cancelRecording s).stream = none ∧
      (cancelRecording s).error = s.error ∧
      (∀ r, (cancelRecording s).mediaRecorder = some r →
        r.state = MRState.inactive ∧ r.onstopAttached = false) ∧
      (∀ st, s.stream = some st →
        stopTracks st ∈ (cancelRecording s).releasedStreams ∧
          ∀ t ∈ (stopTracks st).tracks, t.stopped = true) ∧
      cancelRecording initState = initState := by
  have hrec : ∀ r, (cancelRecording s).mediaRecorder = some r →
      r.state = MRState.inactive ∧ r.onstopAttached = false := by
    intro r hr
    rw [cancelRecording_mediaRecorder] at hr
    cases hmr : s.mediaRecorder with
    | none => rw [hmr] at hr; simp at hr
    | some r0 =>
        rw [hmr] at hr
        injection hr with hr
        subst hr
        cases h0 : r0.state <;> simp [h0]
  refine ⟨?_, ?_, ?_, ?_, hrec, ?_, by decide⟩ <;>
    rcases s with ⟨st0, e0, mr0, ch0, str0, rel0, del0, d0, a0⟩ <;>
    cases mr0 <;> cases str0 <;>
    simp [cancelRecording, stopTracks]

/-- Below the cap, `k` timer ticks simply advance the counter by `k` and
change nothing else. -/
theorem tick_iterate_below (k : Nat) :
    ∀ t : RecorderModel, t.status = RecordingStatus.recording →
      t.duration + k < MAX_DURATION_SECONDS →
      tick^[k] t = { t with duration := t.duration + k } := by
  induction k with
  | zero =>
    intro t ht hd
    simp [Function.iterate_zero]
  | succ k ih =>
    intro t ht hd
    rw [Function.iterate_succ_apply]
    have htick : tick t = { t with duration := t.duration + 1 } := by
      unfold tick
      rw [if_pos ht, if_neg (by omega)]
    rw [htick, ih { t with duration := t.duration + 1 } ht (by simp; omega)]
    have harith : t.duration + 1 + k = t.duration + (k + 1) := by omega
    simp [harith]

/-- C3: while recording, each timer tick moves the counter to
`min (duration + 1) 300` — one increment per tick, never past the cap;
reaching the cap triggers exactly the `stopRecording` path used by an
explicit stop; and 300 one-second ticks from a fresh recording session leave
the device stopped with the counter pinned at 300, after which the
automatically following finalize event yields status `stopped` and a
delivered payload without any caller intervention. -/
theorem claim_duration_cap (s : RecorderModel) (r : MediaRecorder)
    (hs : s.status = RecordingStatus.recording) (hr : s.mediaRecorder = some r)
    (hatt : r.onstopAttached = true) (hd : s.duration = 0) :
    (∀ t : RecorderModel, t.status = RecordingStatus.recording →
      (tick t).duration = min (t.duration + 1) MAX_DURATION_SECONDS) ∧
      (∀ t : RecorderModel, t.duration ≤ MAX_DURATION_SECONDS →
        (tick t).duration ≤ MAX_DURATION_SECONDS) ∧
      (∀ t : RecorderModel, t.status = RecordingStatus.recording →
        MAX_DURATION_SECONDS ≤ t.duration + 1 →
        tick t = { stopRecording t with duration := MAX_DURATION_SECONDS }) ∧
      (tick^[300] s).duration = MAX_DURATION_SECONDS ∧
      (tick^[300] s).mediaRecorder = some { r with state := MRState.inactive } ∧
      (fireOnstop (tick^[300] s)).status = RecordingStatus.stopped ∧
      (fireOnstop (tick^[300] s)).delivered =
        some (s.audioChunks, if r.mimeType = "" then "audio/webm" else r.mimeType) := by
  have hstep : ∀ t : RecorderModel, t.status = RecordingStatus.recording →
      (tick t).duration = min (t.duration + 1) MAX_DURATION_SECONDS := by
    intro t ht
    simp only [tick]
    rw [if_pos ht]
    split <;> simp <;> omega
  have hbound : ∀ t : RecorderModel, t.duration ≤ MAX_DURATION_SECONDS →
      (tick t).duration ≤ MAX_DURATION_SECONDS := by
    intro t ht
    simp only [tick]
    split
    · split
      · simp
      · simp
        omega
    · exact ht
  have hcap : ∀ t : RecorderModel, t.status = RecordingStatus.recording →
      MAX_DURATION_SECONDS ≤ t.duration + 1 →
      tick t = { stopRecording t with duration := MAX_DURATION_SECONDS } := by
    intro t ht hge
    simp only [tick]
    rw [if_pos ht, if_pos hge]
  have h299 : tick^[299] s = { s with duration := 299 } := by
    have := tick_iterate_below 299 s hs (by rw [hd]; simp [MAX_DURATION_SECONDS])
    rw [this, hd]
  have h300 : tick^[300] s =
      { s with duration := 300, mediaRecorder := some { r with state := MRState.inactive } } := by
    have hsplit : (300 : Nat) = 299 + 1 := rfl
    rw [hsplit, Function.iterate_succ_apply', h299]
    have hcap' := hcap { s with duration := 299 } hs (by simp [MAX_DURATION_SECONDS])
    rw [hcap']
    unfold stopRecording
    simp [hr, hs, MAX_DURATION_SECONDS]
  refine ⟨hstep, hbound, hcap, ?_, ?_, ?_, ?_⟩ <;> rw [h300] <;>
    simp [fireOnstop, hatt, MAX_DURATION_SECONDS]

/-- Closed instance of C3: 300 simulated ticks and the finalize event stop a
fresh session and deliver its payload. -/
theorem claim_duration_cap_witness :
    (fireOnstop (tick^[300] exFreshRecording)).status = RecordingStatus.stopped ∧
      (fireOnstop (tick^[300] exFreshRecording)).delivered =
        some ([exChunk], "audio/webm") := by
  have h := claim_duration_cap exFreshRecording exRecorder rfl rfl rfl rfl
  refine ⟨h.2.2.2.2.2.1, ?_⟩
  rw [h.2.2.2.2.2.2]
  rfl

/-- The chunk buffer accumulates device-delivered fragments in delivery
order, keeping exactly the positive-size ones; nothing else changes. -/
theorem applyEvents_data (cs : List Chunk) :
    ∀ s : RecorderModel,
      applyEvents s (cs.map PostEvent.data) =
        { s with audioChunks := s.audioChunks ++ cs.filter (fun c => 0 < c.size) } := by
  induction cs with
  | nil =>
    intro s
    simp [applyEvents]
  | cons c cs ih =>
    intro s
    simp only [List.map_cons, applyEvents, List.foldl_cons]
    have h1 : applyEvent s (PostEvent.data c) = dataAvailable s c := rfl
    rw [h1]
    unfold dataAvailable
    by_cases h : 0 < c.size
    · rw [if_pos h]
      have := ih { s with audioChunks := s.audioChunks ++ [c] }
      unfold applyEvents at this
      rw [this]
      simp [List.filter_cons, h]
    · rw [if_neg h]
      have := ih s
      unfold applyEvents at this
      rw [this]
      simp only [List.filter_cons]
      rw [if_neg (by simpa using h)]

/-- C4: stopping while recording finalizes exactly the accumulated fragments
in the order the device delivered them — after a sequence of device
deliveries the buffer is the prior buffer extended in order by the
positive-size fragments, and the finalize event resolves that buffer tagged
with the device-reported encoding (falling back to 'audio/webm' when none is
reported), transitions to `stopped`, stops every physical input track of the
held stream and clears the stream ref. -/
theorem claim_stop_finalize (s : RecorderModel) (r : MediaRecorder) (st : MediaStream)
    (cs : List Chunk)
    (hs : s.status = RecordingStatus.recording) (hr : s.mediaRecorder = some r)
    (hatt : r.onstopAttached = true) (hst : s.stream = some st) :
    (applyEvents s (cs.map PostEvent.data)).audioChunks =
        s.audioChunks ++ cs.filter (fun c => 0 < c.size) ∧
      (fireOnstop (stopRecording (applyEvents s (cs.map PostEvent.data)))).delivered =
        some (s.audioChunks ++ cs.filter (fun c => 0 < c.size),
          if r.mimeType = "" then "audio/webm" else r.mimeType) ∧
      (fireOnstop (stopRecording (applyEvents s (cs.map PostEvent.data)))).status =
        RecordingStatus.stopped ∧
      (fireOnstop (stopRecording (applyEvents s (cs.map PostEvent.data)))).stream = none ∧
      stopTracks st ∈
        (fireOnstop (stopRecording (applyEvents s (cs.map PostEvent.data)))).releasedStreams ∧
      (∀ t ∈ (stopTracks st).tracks, t.stopped = true) := by
  rw [applyEvents_data]
  have hstop : stopRecording { s with audioChunks := (s.audioChunks ++ cs.filter fun c => 0 < c.size) } =
      { s with
          audioChunks := (s.audioChunks ++ cs.filter fun c => 0 < c.size)
          mediaRecorder := some { r with state := MRState.inactive } } := by
    unfold stopRecording
    simp [hr, hs]
  rw [hstop]
  refine ⟨by simp, ?_, ?_, ?_, ?_, by simp [stopTracks]⟩ <;>
    simp [fireOnstop, hatt, hst, stopTracks]

/-- Closed instance of C4 at a mid-recording state with a mixed delivery
sequence. -/
theorem claim_stop_finalize_witness :
    (fireOnstop (stopRecording (applyEvents exRecordingState
        ([exChunk2, exEmptyChunk].map PostEvent.data)))).delivered =
      some ([exChunk, exChunk2], "audio/webm") ∧
      (fireOnstop (stopRecording (applyEvents exRecordingState
        ([exChunk2, exEmptyChunk].map PostEvent.data)))).status =
        RecordingStatus.stopped := by
  have h := claim_stop_finalize exRecordingState exRecorder exStream
    [exChunk2, exEmptyChunk] rfl rfl rfl rfl
  refine ⟨?_, h.2.2.1⟩
  rw [h.2.1]
  rfl

/-- The finalize callback stays detached: a detached recorder map entails
detachment whenever the attachment map is preserved. -/
theorem detached_of_map_eq {s t : RecorderModel}
    (hmap : t.mediaRecorder.map MediaRecorder.onstopAttached =
      s.mediaRecorder.map MediaRecorder.onstopAttached)
    (hdet : ∀ r, s.mediaRecorder = some r → r.onstopAttached = false) :
    ∀ r, t.mediaRecorder = some r → r.onstopAttached = false := by
  intro r hr
  rw [hr] at hmap
  cases hmr : s.mediaRecorder with
  | none => rw [hmr] at hmap; simp at hmap
  | some r0 =>
      rw [hmr] at hmap
      injection hmap with hmap
      rw [hmap]
      exact hdet r0 hmr

theorem stopRecording_delivered (s : RecorderModel) :
    (stopRecording s).delivered = s.delivered := by
  rcases s with ⟨st0, e0, mr0, ch0, str0, rel0, del0, d0, a0⟩
  cases mr0 <;> simp [stopRecording] <;> split <;> simp

theorem stopRecording_attached_map (s : RecorderModel) :
    (stopRecording s).mediaRecorder.map MediaRecorder.onstopAttached =
      s.mediaRecorder.map MediaRecorder.onstopAttached := by
  rcases s with ⟨st0, e0, mr0, ch0, str0, rel0, del0, d0, a0⟩
  cases mr0 <;> simp [stopRecording] <;> split <;> simp

theorem tick_delivered (s : RecorderModel) : (tick s).delivered = s.delivered := by
  simp only [tick]
  split
  · split
    · simp [stopRecording_delivered]
    · simp
  · rfl

theorem tick_attached_map (s : RecorderModel) :
    (tick s).mediaRecorder.map MediaRecorder.onstopAttached =
      s.mediaRecorder.map MediaRecorder.onstopAttached := by
  simp only [tick]
  split
  · split
    · simp [stopRecording_attached_map]
    · simp
  · rfl

theorem cancelRecording_delivered (s : RecorderModel) :
    (cancelRecording s).delivered = s.delivered := by
  rcases s with ⟨st0, e0, mr0, ch0, str0, rel0, del0, d0, a0⟩
  cases mr0 <;> cases str0 <;> simp [cancelRecording]

/-- After `cancelRecording` the finalize callback is always detached. -/
theorem cancelRecording_detached (s : RecorderModel) :
    ∀ r, (cancelRecording s).mediaRecorder = some r → r.onstopAttached = false := by
  intro r hrr
  rw [cancelRecording_mediaRecorder] at hrr
  cases hmr : s.mediaRecorder with
  | none => rw [hmr] at hrr; simp at hrr
  | some r0 =>
      rw [hmr] at hrr
      injection hrr with hrr
      rw [← hrr]

/-- One environment event can neither re-attach a detached finalize callback
nor deliver a payload that was not already delivered. -/
theorem detached_invariant (s : RecorderModel)
    (hdet : ∀ r, s.mediaRecorder = some r → r.onstopAttached = false)
    (hdel : s.delivered = none) (e : PostEvent) :
    (∀ r, (applyEvent s e).mediaRecorder = some r → r.onstopAttached = false) ∧
      (applyEvent s e).delivered = none := by
  cases e with
  | data c =>
      simp only [applyEvent]
      unfold dataAvailable
      split <;> exact ⟨by simpa using hdet, by simpa using hdel⟩
  | onstopFired =>
      have hsame : fireOnstop s = s := by
        unfold fireOnstop
        cases hmr : s.mediaRecorder with
        | none => rfl
        | some r0 =>
            have h0 := hdet r0 hmr
            simp [h0]
      simp only [applyEvent]
      rw [hsame]
      exact ⟨hdet, hdel⟩
  | timerTick =>
      simp only [applyEvent]
      exact ⟨detached_of_map_eq (tick_attached_map s) hdet,
        (tick_delivered s).trans hdel⟩
  | stopCall =>
      simp only [applyEvent]
      exact ⟨detached_of_map_eq (stopRecording_attached_map s) hdet,
        (stopRecording_delivered s).trans hdel⟩
  | cancelCall =>
      simp only [applyEvent]
      exact ⟨cancelRecording_detached s, (cancelRecording_delivered s).trans hdel⟩

/-- No sequence of environment events can deliver a payload once the finalize
callback is detached and nothing was delivered. -/
theorem applyEvents_detached (es : List PostEvent) :
    ∀ s : RecorderModel,
      (∀ r, s.mediaRecorder = some r → r.onstopAttached = false) →
      s.delivered = none →
      (applyEvents s es).delivered = none := by
  induction es with
  | nil => intro s _ hdel; exact hdel
  | cons e es ih =>
      intro s hdet hdel
      have h := detached_invariant s hdet hdel e
      exact ih (applyEvent s e) h.1 h.2

/-- C5: once cancelRecording runs — in particular when it is invoked after a
stop() request but before the finalize callback fires — the finalize payload
is never delivered: the callback is detached before the device is stopped, so
no sequence of later environment events (device data, the pending stop event,
timer ticks, further stop or cancel calls) ever delivers a payload from the
cancelled session. -/
theorem claim_cancel_prevents_delivery (s : RecorderModel) (es : List PostEvent)
    (hdel : s.delivered = none) :
    (applyEvents (cancelRecording (stopRecording s)) es).delivered = none := by
  have hdel' : (cancelRecording (stopRecording s)).delivered = none :=
    (cancelRecording_delivered _).trans ((stopRecording_delivered s).trans hdel)
  exact applyEvents_detached es _ (cancelRecording_detached _) hdel'

/-- Closed instance of C5: the pending stop event after a cancellation does
not deliver a payload. -/
theorem claim_cancel_prevents_delivery_witness :
    (applyEvents (cancelRecording (stopRecording exRecordingState))
      [PostEvent.onstopFired]).delivered = none :=
  claim_cancel_prevents_delivery exRecordingState [PostEvent.onstopFired] rfl

/-- Closed instance of C7 at a mid-recording state. -/
theorem claim_cancel_any_state_witness :
    (cancelRecording exRecordingState).status = RecordingStatus.inactive ∧
      (cancelRecording exRecordingState).audioChunks = [] ∧
      stopTracks exStream ∈ (cancelRecording exRecordingState).releasedStreams :=
  ⟨(claim_cancel_any_state exRecordingState).1,
    (claim_cancel_any_state exRecordingState).2.1,
    ((claim_cancel_any_state exRecordingState).2.2.2.2.2.1 exStream rfl).1⟩

end SpeakWise
